import Mathlib

/-!
Verification of the job-lifecycle behaviour of the video-subtitle service.

The repository contains two variants of the service:
* `src/api/index.py`  — the serverless variant (namespace `Api` below);
* `src/script.py`     — the background-worker variant (namespace `Script` below).

Each Python function that the claims touch is embedded as an executable Lean
definition; external collaborators (AssemblyAI, Groq, ffmpeg, moviepy, the
file system) are modelled as explicit oracles/scenario parameters, and the
shared mutable job dictionary as an explicit association list threaded
through the operations.
-/

/-! ## Shared helpers: Python string/extension logic

`allowed_file(filename)` in both variants is
`'.' in filename and filename.rsplit('.', 1)[1].lower() in ALLOWED_EXTENSIONS`.
`rsplit('.', 1)[1]` is the suffix of the filename after its last dot, which we
compute by reversing the character list and taking the run of non-dot
characters (exactly how a right split at the last separator behaves).
-/

/-- Suffix of `s` strictly after the last `'.'` (meaningful when `s` has a dot);
models Python `s.rsplit('.', 1)[1]`. -/
def afterLastDot (s : String) : String :=
  ⟨((s.data.reverse.takeWhile (fun c => c ≠ '.')).reverse)⟩

/-- Python `s.lower()`, character-wise case mapping (the configured
extension sets are ASCII, where Python's and Lean's lowercasing agree). -/
def pyLower (s : String) : String := ⟨s.data.map Char.toLower⟩

/-- `allowed_file` from `src/api/index.py` line 72 and `src/script.py` line 67,
parametrised by the configured `ALLOWED_EXTENSIONS` set (modelled as a list). -/
def allowed_file (exts : List String) (filename : String) : Bool :=
  filename.data.contains '.' && pyLower (afterLastDot filename) ∈ exts

namespace Api

/-- `ALLOWED_EXTENSIONS` of `src/api/index.py` line 34. -/
def ALLOWED_EXTENSIONS : List String :=
  ["mp4", "avi", "mov", "mkv", "wmv", "flv", "webm", "mp3", "wav"]

/-- `MAX_CONTENT_LENGTH` of `src/api/index.py` line 35 (25MB). -/
def MAX_CONTENT_LENGTH : Nat := 25 * 1024 * 1024

end Api

namespace Script

/-- `ALLOWED_EXTENSIONS` of `src/script.py` line 38. -/
def ALLOWED_EXTENSIONS : List String :=
  ["mp4", "avi", "mov", "mkv", "wmv", "flv", "webm"]

/-- `MAX_CONTENT_LENGTH` of `src/script.py` line 39 (500MB). -/
def MAX_CONTENT_LENGTH : Nat := 500 * 1024 * 1024

end Script

/-! ## SRT conversion (`src/api/index.py` lines 187-226)

`convert_to_srt(words)` turns the provider's word-level timestamps into SRT
text: it walks the word list with an index `i`, accumulating
`current_text += word.get("text","") + " "`, and closes a cue whenever
`(i + 1) % 10 == 0 or i == len(words) - 1`, numbering cues from 1.
`format_time_srt(seconds)` renders a float number of seconds; we model the
float arithmetic with exact rationals (all the operations used — `//`, `%`,
`*`, `int()` — are order/floor computations that the claims state only
structurally). -/

/-- One entry of the provider's `words` list.  `text`/`start`/`stop` model
`word.get("text","")`, `word.get("start")`, `word.get("end")` (`end` is a
Lean keyword, hence `stop`); absent keys are `none`. -/
structure Word where
  text : String
  start : Option ℚ
  stop : Option ℚ
deriving DecidableEq

/-- Python `a % b` for rationals (`b > 0`): the representative of `a` in
`[0, b)`, i.e. `a - b * ⌊a / b⌋`. -/
def pyMod (a b : ℚ) : ℚ := a - b * ⌊a / b⌋

/-- Python `'{:02d}'.format(n)`: decimal, zero-padded to width 2. -/
def pad2 (n : ℤ) : String :=
  if 0 ≤ n ∧ n < 10 then "0" ++ toString n else toString n

/-- Python `'{:03d}'.format(n)`: decimal, zero-padded to width 3. -/
def pad3 (n : ℤ) : String :=
  if 0 ≤ n ∧ n < 10 then "00" ++ toString n
  else if 0 ≤ n ∧ n < 100 then "0" ++ toString n
  else toString n

/-- `format_time_srt` (`src/api/index.py` lines 220-226).
`hours = int(seconds // 3600)`, `minutes = int((seconds % 3600) // 60)`,
`secs = int(seconds % 60)`, `milliseconds = int((seconds % 1) * 1000)`;
the `int()` truncations all apply to nonnegative values (Python `%` with a
positive divisor is nonnegative), so they are floors. -/
def format_time_srt (seconds : ℚ) : String :=
  let hours : ℤ := ⌊seconds / 3600⌋
  let minutes : ℤ := ⌊pyMod seconds 3600 / 60⌋
  let secs : ℤ := ⌊pyMod seconds 60⌋
  let milliseconds : ℤ := ⌊pyMod seconds 1 * 1000⌋
  pad2 hours ++ ":" ++ pad2 minutes ++ ":" ++ pad2 secs ++ "," ++ pad3 milliseconds

/-- The body of `convert_to_srt`'s `for i, word in enumerate(words)` loop.
`n` is `len(words)`, `i` the enumeration index, `idx` the running
`subtitle_index`, `cur` the running `current_text`, `st` the running
`start_time` (`none` models Python `None`). -/
def srtLoop (n : Nat) : Nat → Nat → String → Option ℚ → List Word → String
  | _, _, _, _, [] => ""
  | i, idx, cur, st, w :: rest =>
    let st' : ℚ := st.getD (w.start.getD 0)
    let cur' : String := cur ++ w.text ++ " "
    if (i + 1) % 10 = 0 ∨ i = n - 1 then
      (toString idx ++ "\n"
        ++ format_time_srt st' ++ " --> "
          ++ format_time_srt (w.stop.getD (w.start.getD 0 + 1)) ++ "\n"
        ++ cur'.trim ++ "\n\n")
        ++ srtLoop n (i + 1) (idx + 1) "" none rest
    else
      srtLoop n (i + 1) idx cur' (some st') rest

/-- `convert_to_srt` (`src/api/index.py` lines 187-218). -/
def convert_to_srt (words : List Word) : String :=
  if words.isEmpty then "" else srtLoop words.length 0 1 "" none words

/-! ### Specification-shaped renderer for `convert_to_srt`

For claim C10 we compare the loop above with an explicitly chunked renderer:
split the word list into groups of 10 (last group possibly shorter) and
render the groups as consecutively numbered cues. -/

/-- Fuel-indexed chunking; `fuel ≥ l.length` makes it total (each step
consumes at least one element). -/
def chunksGo : Nat → List Word → List (List Word)
  | 0, _ => []
  | _, [] => []
  | fuel + 1, w :: rest => ((w :: rest).take 10) :: chunksGo fuel ((w :: rest).drop 10)

/-- Split a word list into consecutive groups of 10 (final group shorter). -/
def chunks10 (l : List Word) : List (List Word) := chunksGo l.length l

/-- `current_text` accumulation over a group of words
(`current_text += word.get("text","") + " "`). -/
def textAcc (cur : String) (c : List Word) : String :=
  c.foldl (fun acc w => acc ++ w.text ++ " ") cur

/-- The cue start time: the pending `start_time` if set, else the first
word's `start` (default 0). -/
def stVal (st : Option ℚ) (c : List Word) : ℚ :=
  st.getD ((c.head?.map (fun w => w.start.getD 0)).getD 0)

/-- The cue end time: the closing word's `end`, defaulting to its
`start + 1`. -/
def endVal (c : List Word) : ℚ :=
  match c.getLast? with
  | some w => w.stop.getD (w.start.getD 0 + 1)
  | none => 0

/-- Render one cue for group `c`, numbered `idx`, with carried-in
accumulator state `cur`/`st` (both empty at a real group boundary). -/
def cueString (idx : Nat) (cur : String) (st : Option ℚ) (c : List Word) : String :=
  toString idx ++ "\n"
    ++ format_time_srt (stVal st c) ++ " --> " ++ format_time_srt (endVal c) ++ "\n"
    ++ (textAcc cur c).trim ++ "\n\n"

/-- Render the groups as cues numbered consecutively starting at `idx`. -/
def renderCues (idx : Nat) : List (List Word) → String
  | [] => ""
  | c :: cs => cueString idx "" none c ++ renderCues (idx + 1) cs

/-! ## Job dictionaries

Both variants keep jobs in a module-level Python dict keyed by a uuid.  We
model a dict as an association list in insertion order.  Python dict
semantics: assignment to an existing key replaces the value in place,
assignment to a fresh key appends, `del` removes the unique entry with that
key (keys are unique, so removing every entry with the key is the same
operation). -/

/-- A job dictionary with values of type `J`. -/
abbrev JobMap (J : Type) : Type := List (String × J)

/-- `id in dict` / `dict[id]` read access. -/
def JobMap.lookup {J : Type} (store : JobMap J) (id : String) : Option J :=
  (List.find? (fun e => e.1 = id) store).map (fun e => e.2)

/-- `dict[id] = value`: replace the (unique) existing entry in place, or
append when the key is fresh. -/
def JobMap.set {J : Type} : JobMap J → String → J → JobMap J
  | [], id, j => [(id, j)]
  | e :: rest, id, j =>
    if e.1 = id then (id, j) :: rest else e :: JobMap.set rest id j

/-- `dict[id].update({...})` (mutate the existing entry). -/
def JobMap.update {J : Type} (store : JobMap J) (id : String) (f : J → J) : JobMap J :=
  List.map (fun e => if e.1 = id then (e.1, f e.2) else e) store

/-- `del dict[id]`. -/
def JobMap.erase {J : Type} (store : JobMap J) (id : String) : JobMap J :=
  List.filter (fun e => e.1 ≠ id) store

/-- The key list of the dict (what a listing exposes per id). -/
def JobMap.keys {J : Type} (store : JobMap J) : List String :=
  List.map (fun e => e.1) store

/-- Decidable equality for fallible results. -/
instance exceptDecidableEq {ε α : Type} [DecidableEq ε] [DecidableEq α] :
    DecidableEq (Except ε α) := fun a b =>
  match a, b with
  | .ok x, .ok y =>
      if h : x = y then .isTrue (by rw [h])
      else .isFalse (fun hc => h (by injection hc))
  | .error x, .error y =>
      if h : x = y then .isTrue (by rw [h])
      else .isFalse (fun hc => h (by injection hc))
  | .ok _, .error _ => .isFalse (fun hc => Except.noConfusion hc)
  | .error _, .ok _ => .isFalse (fun hc => Except.noConfusion hc)

/-! ## The serverless variant, `src/api/index.py` -/

namespace Api

/-- An `HTTPException(status_code=code, detail=detail)`. -/
structure HErr where
  code : Nat
  detail : String
deriving DecidableEq

/-- One entry of `processing_jobs` (the fields the claims touch; `job_id`,
`created_at` and `download_url` carry no lifecycle information). -/
structure Job where
  status : String
  message : String
  filename : String
  srt_content : Option String
deriving DecidableEq

/-- Pipeline collaborator calls observable from outside the process, used to
state that work does (not) happen inside a request handler. -/
inductive Ev
  | upload
  | submit
  | poll
deriving DecidableEq

/-- What one polling probe of `get_transcription_result`
(`src/api/index.py` lines 150-183) observes:

* `completed srtOk srtText words` — transcript status `"completed"`; when
  `srtOk` the follow-up `/srt` request returned HTTP 200 with body
  `srtText`, otherwise the code falls back to `convert_to_srt(words)`;
* `errorStatus` — transcript status `"error"`: line 175 raises an
  `HTTPException`, which the loop's own `except` (line 180) catches, so the
  loop retries unless fewer than 30 seconds of budget remain;
* `pending` — any other status: sleep 5 seconds and re-poll;
* `exn` — the probe itself raised (transport error, missing field),
  handled by the same `except` as `errorStatus`. -/
inductive PollOut
  | completed (srtOk : Bool) (srtText : String) (words : List Word)
  | errorStatus
  | pending
  | exn
deriving DecidableEq

/-- The `while time.time() - start_time < max_wait` loop of
`get_transcription_result` with `max_wait = 300`.  Probes are instantaneous
and every non-returning iteration sleeps 5 seconds, so iteration `k` runs at
elapsed time `5 * k` and the guard `5 * k < 300` holds exactly when
`stepsLeft = 60 - k` is positive; `stepsLeft` is the structural fuel kept in
lock-step with `k` (`get_transcription_result` below starts `k = 0`,
`stepsLeft = 60`).  Returns the result paired with the number of probes
performed.  The in-loop budget check `time.time() - start_time > max_wait - 30`
is `5 * k > 270`. -/
def pollAux (oracle : Nat → PollOut) : Nat → Nat → (Except HErr String) × Nat
  | _, 0 => (.error ⟨408, "Transcription timeout"⟩, 0)
  | k, stepsLeft + 1 =>
    match oracle k with
    | .completed srtOk srtText words =>
        (.ok (if srtOk then srtText else convert_to_srt words), 1)
    | .errorStatus =>
        if 5 * k > 300 - 30 then
          (.error ⟨500, "Transcription polling failed"⟩, 1)
        else
          let r := pollAux oracle (k + 1) stepsLeft
          (r.1, r.2 + 1)
    | .exn =>
        if 5 * k > 300 - 30 then
          (.error ⟨500, "Transcription polling failed"⟩, 1)
        else
          let r := pollAux oracle (k + 1) stepsLeft
          (r.1, r.2 + 1)
    | .pending =>
        let r := pollAux oracle (k + 1) stepsLeft
        (r.1, r.2 + 1)

/-- `get_transcription_result(transcript_id, max_wait=300)`
(`src/api/index.py` lines 145-185): poll until terminal outcome or budget
exhaustion (then `HTTPException(408, "Transcription timeout")`). -/
def get_transcription_result (oracle : Nat → PollOut) : (Except HErr String) × Nat :=
  pollAux oracle 0 60

/-- Result of one `POST /transcribe` request: the HTTP outcome, the job dict
afterwards, the pipeline calls performed during the request, and the
sequence of `status` values written to the job record (in order). -/
structure RunResult where
  result : Except HErr String
  store : JobMap Job
  events : List Ev
  statusWrites : List String
deriving DecidableEq

/-- `transcribe_file` (`src/api/index.py` lines 254-331).

Inputs: the current `processing_jobs` dict, the request's filename and
payload size, whether `ASSEMBLYAI_API_KEY` is configured, the uuid the
handler draws, and the collaborator outcomes: `uploadRes` for
`upload_to_assemblyai` (which raises `HTTPException` on any failure),
`submitRes` for `request_transcription` (likewise, including the
missing-`id` case), and `oracle` for the polling probes.

Every failure after the job record is created is an `HTTPException`, and the
handler's `except HTTPException: raise` re-raises it without touching the
record, so the `except Exception` branch that would set `status = "error"`
is never taken: `upload_to_assemblyai`, `request_transcription` and
`get_transcription_result` each wrap all their internal failures in
`HTTPException` (lines 113-114, 138-143, 174-185). -/
def transcribe_file (store : JobMap Job) (filename : String) (size : Nat)
    (hasKey : Bool) (jobId : String) (uploadRes : Except String String)
    (submitRes : Except String String) (oracle : Nat → PollOut) : RunResult :=
  if filename = "" then
    ⟨.error ⟨400, "No file provided"⟩, store, [], []⟩
  else if ¬ allowed_file ALLOWED_EXTENSIONS filename then
    ⟨.error ⟨400, "Invalid file type"⟩, store, [], []⟩
  else if ¬ hasKey then
    ⟨.error ⟨500, "AssemblyAI API key not configured"⟩, store, [], []⟩
  else if size > MAX_CONTENT_LENGTH then
    ⟨.error ⟨413, "File too large. Maximum size is 25MB"⟩, store, [], []⟩
  else
    let store1 := store.set jobId
      ⟨"uploading", "Uploading file to transcription service...", filename, none⟩
    match uploadRes with
    | .error e =>
        ⟨.error ⟨500, "Upload failed: " ++ e⟩, store1, [.upload], ["uploading"]⟩
    | .ok _ =>
      let store2 := store1.update jobId (fun j =>
        { j with status := "transcribing", message := "Transcription in progress..." })
      match submitRes with
      | .error e =>
          ⟨.error ⟨500, "Transcription request failed: " ++ e⟩, store2,
            [.upload, .submit], ["uploading", "transcribing"]⟩
      | .ok _ =>
        let pr := get_transcription_result oracle
        match pr.1 with
        | .error he =>
            ⟨.error he, store2, [.upload, .submit] ++ List.replicate pr.2 .poll,
              ["uploading", "transcribing"]⟩
        | .ok srt =>
          let store3 := store2.update jobId (fun j =>
            { j with status := "completed",
                     message := "Transcription completed successfully",
                     srt_content := some srt })
          ⟨.ok jobId, store3, [.upload, .submit] ++ List.replicate pr.2 .poll,
            ["uploading", "transcribing", "completed"]⟩

/-- `get_job_status` (`src/api/index.py` lines 333-339). -/
def get_job_status (store : JobMap Job) (id : String) : Except HErr Job :=
  match store.lookup id with
  | none => .error ⟨404, "Job not found"⟩
  | some j => .ok j

/-- `download_srt` (`src/api/index.py` lines 341-359): 404 for an unknown
id, 400 while not completed, 404 when `srt_content` is falsy (absent or the
empty string), otherwise the SRT text. -/
def download_srt (store : JobMap Job) (id : String) : Except HErr String :=
  match store.lookup id with
  | none => .error ⟨404, "Job not found"⟩
  | some job =>
    if job.status ≠ "completed" then .error ⟨400, "Transcription not completed"⟩
    else
      match job.srt_content with
      | none => .error ⟨404, "SRT content not available"⟩
      | some s =>
        if s = "" then .error ⟨404, "SRT content not available"⟩ else .ok s

/-- `list_jobs` (`src/api/index.py` lines 394-400): `total_jobs` and the job
records. -/
def list_jobs (store : JobMap Job) : Nat × List Job :=
  (store.length, List.map (fun e => e.2) store)

/-- `delete_job` (`src/api/index.py` lines 402-409). -/
def delete_job (store : JobMap Job) (id : String) : (Except HErr String) × JobMap Job :=
  match store.lookup id with
  | none => (.error ⟨404, "Job not found"⟩, store)
  | some _ => (.ok ("Job " ++ id ++ " deleted successfully"), store.erase id)

/-- `get_llama_response` (`src/api/index.py` lines 76-98), `max_retries = 2`:
attempt `k` consults `oracle k`; a failure before the last attempt sleeps 2
seconds and retries; after the last failure the function returns `None`.
Returns (value, number of provider calls, sleep durations).  The second
`Nat` argument is the remaining length of `range(max_retries)`. -/
def llamaAux (oracle : Nat → Except Unit String) : Nat → Nat → Option String × Nat × List Nat
  | _, 0 => (none, 0, [])
  | attempt, remaining + 1 =>
    match oracle attempt with
    | .ok t => (some t, 1, [])
    | .error _ =>
      let r := llamaAux oracle (attempt + 1) remaining
      if attempt < 2 - 1 then (r.1, r.2.1 + 1, 2 :: r.2.2)
      else (r.1, r.2.1 + 1, r.2.2)

/-- Entry point of the completion client, `max_retries = 2`. -/
def get_llama_response (oracle : Nat → Except Unit String) : Option String × Nat × List Nat :=
  llamaAux oracle 0 2

end Api

/-! ## The background-worker variant, `src/script.py` -/

namespace Script

/-- An `HTTPException(status_code=code, detail=detail)`. -/
structure HErr where
  code : Nat
  detail : String
deriving DecidableEq

/-- One entry of `processing_status` (status and message; `filename` and
`uploaded_at` are immutable metadata). -/
structure Job where
  status : String
  message : String
deriving DecidableEq

/-- `get_llama_response` (`src/script.py` lines 70-97), `max_retries = 3`,
streaming: `all_responses` persists across attempts, so a failed attempt's
partially streamed content (`oracle`'s `.error` payload) is kept and the
next attempt appends to it; a successful attempt returns the accumulated
string.  A failure before the last attempt sleeps `2 ** attempt` seconds.
Returns (value, number of provider calls, sleep durations); the second `Nat`
argument is the remaining length of `range(max_retries)`. -/
def llamaAux (oracle : Nat → Except String String) :
    Nat → Nat → String → Option String × Nat × List Nat
  | _, 0, _ => (none, 0, [])
  | attempt, remaining + 1, acc =>
    match oracle attempt with
    | .ok streamed => (some (acc ++ streamed), 1, [])
    | .error streamedBeforeFailure =>
      let r := llamaAux oracle (attempt + 1) remaining (acc ++ streamedBeforeFailure)
      if attempt < 3 - 1 then (r.1, r.2.1 + 1, 2 ^ attempt :: r.2.2)
      else (r.1, r.2.1 + 1, r.2.2)

/-- Entry point of the completion client, `max_retries = 3`,
`all_responses = ""`. -/
def get_llama_response (oracle : Nat → Except String String) :
    Option String × Nat × List Nat :=
  llamaAux oracle 0 3 ""

/-- The polling loop of `transcribe_video_to_srt`
(`src/script.py` lines 150-156): request the `/srt` endpoint, and while the
response status is not 200, sleep 10 seconds and request again — with no
budget of any kind.  `ok k` tells whether probe `k` returns HTTP 200.
Fuel semantics: the result is the probe index that succeeded, or `none` when
the loop is still running after `fuel` probes. -/
def pollSrt (ok : Nat → Bool) : Nat → Nat → Option Nat
  | 0, _ => none
  | fuel + 1, k => if ok k then some k else pollSrt ok fuel (k + 1)

/-- The sequence of values written to `processing_status[job_id]['status']`
by one job, from `upload_video` (`"queued"`, line 308) through
`process_video_async` → `transcribe_video_to_srt` →
`embed_subtitles_into_video` (`src/script.py` lines 99-252).

Scenario switches (`true` = the collaborator call succeeds):
* `extractOk` — ffmpeg extraction + pydub conversion (lines 111-115);
* `uploadOk` — the AssemblyAI upload, `raise_for_status` (lines 122-128);
* `submitOk` — the transcript POST request itself (line 138);
* `hasId` — `"id" in resp_json` (line 141);
* `pollOk` — some `/srt` probe eventually returns 200; when `false` the
  loop of lines 153-156 never exits, the worker hangs in `"transcribing"`
  and the write sequence below is what has been observed up to that point;
* `llamaOk` — `get_llama_response` returned text rather than `None`
  (line 161; when `None`, line 163's guard skips writing the SRT file and
  the function still returns `True`);
* `writeOk` — writing the SRT file (lines 164-165);
* `loadOk` — loading video/subtitle clips (lines 194-212);
* `renderOk` — `write_videofile` and cleanup (lines 218-227).

Failures inside `transcribe_video_to_srt` and `embed_subtitles_into_video`
are caught by their own `except` blocks, which set `status = 'error'` and
return `False`; `process_video_async` only calls the embedder when the
transcriber returned `True`. -/
def statusTrace (extractOk uploadOk submitOk hasId pollOk llamaOk writeOk
    loadOk renderOk : Bool) : List String :=
  "queued" :: "extracting_audio" ::
  if ¬ extractOk then ["error"]
  else "uploading" ::
    if ¬ uploadOk then ["error"]
    else "transcribing" ::
      if ¬ submitOk then ["error"]
      else if ¬ hasId then ["error"]
      else if ¬ pollOk then []
      else "translating" ::
        if llamaOk ∧ ¬ writeOk then ["error"]
        else
          if ¬ (llamaOk ∧ writeOk) then ["error"]
          else "embedding" ::
            if ¬ loadOk then ["error"]
            else "rendering" ::
              if ¬ renderOk then ["error"]
              else ["completed"]

/-- Result of one `POST /upload` request: HTTP outcome (`ok` carries the
returned `job_id`), the `processing_status` dict afterwards, the background
task handed to `background_tasks.add_task` (run only after the response is
sent), and the pipeline collaborator calls performed during the request
itself. -/
structure UploadResult where
  result : Except HErr String
  store : JobMap Job
  scheduled : Option String
  events : List Api.Ev
deriving DecidableEq

/-- `upload_video` (`src/script.py` lines 270-321).

`size` models `video.size` (`none` when the framework could not determine
it; `hasattr(video, 'size')` is always true for `UploadFile`, and comparing
`None > MAX_CONTENT_LENGTH` raises `TypeError`, surfacing as a 500 before
any record is created).  `saveOk` models writing the upload to disk
(lines 299-304). -/
def upload_video (store : JobMap Job) (filename : String) (size : Option Nat)
    (saveOk : Bool) (jobId : String) : UploadResult :=
  if filename = "" then
    ⟨.error ⟨400, "No file selected"⟩, store, none, []⟩
  else if ¬ allowed_file ALLOWED_EXTENSIONS filename then
    ⟨.error ⟨400, "Invalid file type. Allowed: mp4, avi, mov, mkv, wmv, flv, webm"⟩,
      store, none, []⟩
  else
    match size with
    | none => ⟨.error ⟨500, "TypeError"⟩, store, none, []⟩
    | some s =>
      if s > MAX_CONTENT_LENGTH then
        ⟨.error ⟨413, "File too large. Maximum size is 500MB"⟩, store, none, []⟩
      else if ¬ saveOk then
        ⟨.error ⟨500, "Failed to save file"⟩, store, none, []⟩
      else
        ⟨.ok jobId,
          store.set jobId ⟨"queued", "Video uploaded successfully, processing queued..."⟩,
          some jobId, []⟩

/-- Path of the SRT artifact for a job (`PROCESSED_FOLDER`). -/
def srtPath (id : String) : String := "processed/" ++ id ++ ".srt"

/-- Path of the rendered video artifact for a job. -/
def outPath (id : String) : String := "processed/" ++ id ++ "_with_subtitles.mp4"

/-- `get_status` (`src/script.py` lines 323-329). -/
def get_status (store : JobMap Job) (id : String) : Except HErr Job :=
  match store.lookup id with
  | none => .error ⟨404, "Job ID not found"⟩
  | some j => .ok j

/-- `download_video` (`src/script.py` lines 331-349); `files` is the set of
paths present on disk, the `ok` payload the path served. -/
def download_video (store : JobMap Job) (files : List String) (id : String) :
    Except HErr String :=
  match store.lookup id with
  | none => .error ⟨404, "Job ID not found"⟩
  | some job =>
    if job.status ≠ "completed" then
      .error ⟨400, "Processing not completed yet"⟩
    else if ¬ (outPath id) ∈ files then
      .error ⟨404, "Processed video file not found"⟩
    else .ok (outPath id)

/-- `download_srt` (`src/script.py` lines 351-369). -/
def download_srt (store : JobMap Job) (files : List String) (id : String) :
    Except HErr String :=
  match store.lookup id with
  | none => .error ⟨404, "Job ID not found"⟩
  | some job =>
    if ¬ (job.status = "completed" ∨ job.status = "embedding" ∨ job.status = "rendering") then
      .error ⟨400, "SRT file not ready yet"⟩
    else if ¬ (srtPath id) ∈ files then
      .error ⟨404, "SRT file not found"⟩
    else .ok (srtPath id)

/-- `list_jobs` (`src/script.py` lines 371-374) returns the dict itself. -/
def list_jobs (store : JobMap Job) : JobMap Job := store

/-- Whether a path is removed by `delete_job`'s glob patterns
(`uploads/{id}.*`, `processed/{id}.srt`,
`processed/{id}_with_subtitles.mp4`). -/
def deletesPath (id : String) (p : String) : Bool :=
  p.startsWith ("uploads/" ++ id ++ ".") || p = srtPath id || p = outPath id

/-- `delete_job` (`src/script.py` lines 376-401): 404 when the id is absent;
otherwise remove the job's files and its dict entry. -/
def delete_job (store : JobMap Job) (files : List String) (id : String) :
    (Except HErr String) × JobMap Job × List String :=
  match store.lookup id with
  | none => (.error ⟨404, "Job ID not found"⟩, store, files)
  | some _ =>
      (.ok ("Job " ++ id ++ " and associated files deleted successfully"),
        store.erase id,
        files.filter (fun p => ¬ deletesPath id p))

end Script

/-! ## Spec-level pipeline states (spec §4.2) -/

/-- Whether a request outcome is an HTTP error response. -/
def isErr {ε α : Type} : Except ε α → Bool
  | .error _ => true
  | .ok _ => false

/-- The specification's pipeline states. -/
inductive SpecState
  | Queued
  | ExtractingAudio
  | UploadingMedia
  | Transcribing
  | Translating
  | Embedding
  | Completed
  | Error
deriving DecidableEq, Fintype

/-- Pipeline rank under the order
`Queued → ExtractingAudio → UploadingMedia → Transcribing → Translating →
Embedding → Completed`, with `Error` above everything: the jump to `Error`
is allowed from any state, and both terminal states are never left, so a
status sequence is monotone exactly when its ranks are non-decreasing. -/
def SpecState.rank : SpecState → Nat
  | .Queued => 0
  | .ExtractingAudio => 1
  | .UploadingMedia => 2
  | .Transcribing => 3
  | .Translating => 4
  | .Embedding => 5
  | .Completed => 6
  | .Error => 7

/-- Map the Python status strings of both variants onto the spec's states.
`"rendering"` belongs to the spec's `Embedding` stage (writing the output
video file inside `embed_subtitles_into_video`); unmapped strings (never
produced by either variant) go to `Error`. -/
def toSpec : String → SpecState
  | "queued" => .Queued
  | "extracting_audio" => .ExtractingAudio
  | "uploading" => .UploadingMedia
  | "transcribing" => .Transcribing
  | "translating" => .Translating
  | "embedding" => .Embedding
  | "rendering" => .Embedding
  | "completed" => .Completed
  | _ => .Error

/-- A state is terminal when it is `Completed` or `Error`. -/
def SpecState.isTerminal : SpecState → Bool
  | .Completed => true
  | .Error => true
  | _ => false

/-- Executable check that consecutive ranks along a status sequence are
non-decreasing (the sequence is monotone under the pipeline order). -/
def monotoneRanks : List SpecState → Bool
  | [] => true
  | [_] => true
  | a :: b :: rest => (a.rank ≤ b.rank) && monotoneRanks (b :: rest)

/-- In the serverless variant, some execution writes `"error"` into a job's
`status` field.  (Claim C3 requires `Error` to be reachable; this
proposition is refuted below: every failure after job creation is an
`HTTPException` that `transcribe_file` re-raises without touching the
record.) -/
def Api.errorWritten : Prop :=
  ∃ (store : JobMap Api.Job) (filename : String) (size : Nat) (hasKey : Bool)
    (jobId : String) (uploadRes submitRes : Except String String)
    (oracle : Nat → Api.PollOut),
    "error" ∈ (Api.transcribe_file store filename size hasKey jobId
      uploadRes submitRes oracle).statusWrites

/-! ### Characterisation lemmas for `allowed_file` -/

theorem takeWhile_append_stop {α : Type} (p : α → Bool) (l : List α) (a : α)
    (t : List α) (hl : ∀ x ∈ l, p x = true) (ha : p a = false) :
    (l ++ a :: t).takeWhile p = l := by
  induction l with
  | nil => simp [List.takeWhile_cons, ha]
  | cons x xs ih =>
    have hx : p x = true := hl x (by simp)
    simp only [List.cons_append, List.takeWhile_cons, hx, if_true]
    rw [ih (fun y hy => hl y (by simp [hy]))]

theorem afterLastDot_spec (pre ext : List Char) (hext : '.' ∉ ext) :
    afterLastDot ⟨pre ++ '.' :: ext⟩ = ⟨ext⟩ := by
  unfold afterLastDot
  congr 1
  have h1 : (pre ++ '.' :: ext).reverse = ext.reverse ++ '.' :: pre.reverse := by
    simp [List.reverse_append]
  rw [h1]
  have h2 : (ext.reverse ++ '.' :: pre.reverse).takeWhile (fun c => c ≠ '.')
      = ext.reverse := by
    refine takeWhile_append_stop _ _ _ _ ?_ (by simp)
    intro c hc
    simp only [decide_eq_true_iff]
    intro hcdot
    exact hext (by simpa [hcdot] using (List.mem_reverse.mp hc))
  rw [h2, List.reverse_reverse]

theorem contains_dot_decomp (l : List Char) (h : l.contains '.' = true) :
    ∃ pre ext, l = pre ++ '.' :: ext ∧ '.' ∉ ext := by
  induction l with
  | nil => simp at h
  | cons c cs ih =>
    by_cases hcs : cs.contains '.' = true
    · obtain ⟨pre, ext, heq, hext⟩ := ih hcs
      exact ⟨c :: pre, ext, by simp [heq], hext⟩
    · have hc : c = '.' := by
        have := h
        simp only [List.contains_cons, Bool.or_eq_true, beq_iff_eq] at this
        rcases this with h1 | h2
        · exact h1.symm
        · exact absurd h2 hcs
      refine ⟨[], cs, by simp [hc], ?_⟩
      intro hmem
      exact hcs (List.elem_iff.mpr hmem)


/-- C9: `allowed_file` accepts a filename iff it contains a `'.'` and the
substring after the last `'.'`, lowercased, is in the configured
allowed-extension set; a filename with no dot is always rejected, and
matching depends only on the lowercased extension (case-insensitivity). -/
theorem C9_extension_check (exts : List String) :
    (∀ f : String,
        (allowed_file exts f = true ↔
          ∃ pre ext : List Char, f.data = pre ++ '.' :: ext ∧ '.' ∉ ext ∧
            pyLower (String.mk ext) ∈ exts) ∧
        (f.data.contains '.' = false → allowed_file exts f = false)) ∧
    (∀ pre₁ ext₁ pre₂ ext₂ : List Char, '.' ∉ ext₁ → '.' ∉ ext₂ →
        pyLower (String.mk ext₁) = pyLower (String.mk ext₂) →
        allowed_file exts ⟨pre₁ ++ '.' :: ext₁⟩ = allowed_file exts ⟨pre₂ ++ '.' :: ext₂⟩) := by
  have hmk : ∀ (f : String) (l : List Char), f.data = l → f = ⟨l⟩ := by
    intro f l h
    cases f
    exact congrArg String.mk h
  constructor
  · intro f
    constructor
    · constructor
      · intro h
        unfold allowed_file at h
        rw [Bool.and_eq_true] at h
        obtain ⟨hc, hm⟩ := h
        obtain ⟨pre, ext, heq, hext⟩ := contains_dot_decomp f.data hc
        refine ⟨pre, ext, heq, hext, ?_⟩
        rw [hmk f _ heq, afterLastDot_spec pre ext hext] at hm
        exact of_decide_eq_true hm
      · rintro ⟨pre, ext, heq, hext, hmem⟩
        rw [hmk f _ heq]
        unfold allowed_file
        rw [afterLastDot_spec pre ext hext, Bool.and_eq_true]
        refine ⟨List.elem_iff.mpr ?_, decide_eq_true hmem⟩
        simp
    · intro h
      unfold allowed_file
      rw [h, Bool.false_and]
  · intro p1 e1 p2 e2 h1 h2 hlow
    unfold allowed_file
    rw [afterLastDot_spec p1 e1 h1, afterLastDot_spec p2 e2 h2, hlow]
    have c1 : (String.mk (p1 ++ '.' :: e1)).data.contains '.' = true :=
      List.elem_iff.mpr (by simp)
    have c2 : (String.mk (p2 ++ '.' :: e2)).data.contains '.' = true :=
      List.elem_iff.mpr (by simp)
    rw [c1, c2]

/-- Witness for C9 at concrete inputs: `"movie"` (no dot) is rejected, and a
filename with extension `MP4` is treated exactly like one with `mp4`. -/
theorem C9_extension_check_witness :
    allowed_file Api.ALLOWED_EXTENSIONS "movie" = false ∧
    allowed_file Api.ALLOWED_EXTENSIONS ⟨['c', 'l', 'i', 'p'] ++ '.' :: ['M', 'P', '4']⟩ =
      allowed_file Api.ALLOWED_EXTENSIONS ⟨['c', 'l', 'i', 'p'] ++ '.' :: ['m', 'p', '4']⟩ :=
  ⟨((C9_extension_check Api.ALLOWED_EXTENSIONS).1 "movie").2 (by decide),
   (C9_extension_check Api.ALLOWED_EXTENSIONS).2 ['c', 'l', 'i', 'p'] ['M', 'P', '4']
     ['c', 'l', 'i', 'p'] ['m', 'p', '4'] (by decide) (by decide) (by decide)⟩

/-! ### Dictionary lemmas -/

theorem JobMap.lookup_set {J : Type} (store : JobMap J) (id : String) (j : J) :
    (store.set id j).lookup id = some j := by
  induction store with
  | nil => simp [JobMap.set, JobMap.lookup, List.find?]
  | cons e rest ih =>
    by_cases h : e.1 = id
    · simp [JobMap.set, h, JobMap.lookup, List.find?]
    · simpa [JobMap.set, h, JobMap.lookup, List.find?] using ih

theorem JobMap.lookup_update {J : Type} (store : JobMap J) (id : String) (f : J → J) :
    (store.update id f).lookup id = (store.lookup id).map f := by
  induction store with
  | nil => simp [JobMap.update, JobMap.lookup, List.find?]
  | cons e rest ih =>
    by_cases h : e.1 = id
    · simp [JobMap.update, h, JobMap.lookup, List.find?]
    · simpa [JobMap.update, h, JobMap.lookup, List.find?] using ih

theorem JobMap.lookup_erase {J : Type} (store : JobMap J) (id : String) :
    (store.erase id).lookup id = none := by
  unfold JobMap.erase JobMap.lookup
  rw [List.find?_eq_none.mpr]
  · rfl
  · intro e he
    have := List.of_mem_filter he
    simpa using this

theorem JobMap.not_mem_keys_erase {J : Type} (store : JobMap J) (id : String) :
    ¬ id ∈ (store.erase id).keys := by
  unfold JobMap.erase JobMap.keys
  intro h
  obtain ⟨e, he, heq⟩ := List.mem_map.mp h
  have := List.of_mem_filter he
  simp [heq] at this

/-! ### C4, C5 -/

/-- C4: a submission with a disallowed extension or an oversize payload is
rejected synchronously and never creates a job record: the job dict is
untouched, so the length of the jobs listing is unchanged.  (In the
serverless variant the size check runs after the API-key check, so a
misconfigured key also rejects — in every case no record is created.) -/
theorem C4_validation_never_creates_record :
    (∀ (store : JobMap Api.Job) (filename : String) (size : Nat) (hasKey : Bool)
        (jobId : String) (uploadRes submitRes : Except String String)
        (oracle : Nat → Api.PollOut),
        (allowed_file Api.ALLOWED_EXTENSIONS filename = false ∨
          size > Api.MAX_CONTENT_LENGTH) →
        isErr (Api.transcribe_file store filename size hasKey jobId
          uploadRes submitRes oracle).result = true ∧
        (Api.transcribe_file store filename size hasKey jobId
          uploadRes submitRes oracle).store = store ∧
        (Api.list_jobs (Api.transcribe_file store filename size hasKey jobId
          uploadRes submitRes oracle).store).1 = (Api.list_jobs store).1) ∧
    (∀ (store : JobMap Script.Job) (filename : String) (size : Option Nat)
        (saveOk : Bool) (jobId : String),
        (allowed_file Script.ALLOWED_EXTENSIONS filename = false ∨
          (∃ s, size = some s ∧ s > Script.MAX_CONTENT_LENGTH)) →
        isErr (Script.upload_video store filename size saveOk jobId).result = true ∧
        (Script.upload_video store filename size saveOk jobId).store = store ∧
        (Script.list_jobs (Script.upload_video store filename size saveOk jobId).store).length
          = (Script.list_jobs store).length) := by
  constructor
  · intro store filename size hasKey jobId uploadRes submitRes oracle h
    unfold Api.transcribe_file
    split_ifs with h1 h2 h3 h4 <;>
      first
      | exact ⟨rfl, rfl, rfl⟩
      | (rcases h with hA | hS
         · exact absurd h2 (by simp [hA])
         · exact absurd hS h4)
  · intro store filename size saveOk jobId h
    rcases h with hA | ⟨s, hs, hgt⟩
    · unfold Script.upload_video
      split_ifs with h1 h2 <;>
        first
        | exact ⟨rfl, rfl, rfl⟩
        | exact absurd h2 (by simp [hA])
    · subst hs
      simp only [Script.upload_video]
      split_ifs <;> exact ⟨rfl, rfl, rfl⟩

/-- Witness for C4: `x.exe` (disallowed extension) against the serverless
variant and an oversize 600MB `clip.mp4` against the worker variant. -/
theorem C4_validation_never_creates_record_witness :
    (isErr (Api.transcribe_file [] "x.exe" 5 true "j" (.ok "u") (.ok "t")
        (fun _ => .pending)).result = true ∧
      (Api.transcribe_file [] "x.exe" 5 true "j" (.ok "u") (.ok "t")
        (fun _ => .pending)).store = [] ∧
      (Api.list_jobs (Api.transcribe_file [] "x.exe" 5 true "j" (.ok "u") (.ok "t")
        (fun _ => .pending)).store).1 = (Api.list_jobs []).1) ∧
    (isErr (Script.upload_video [] "clip.mp4" (some (600 * 1024 * 1024)) true "j").result = true ∧
      (Script.upload_video [] "clip.mp4" (some (600 * 1024 * 1024)) true "j").store = [] ∧
      (Script.list_jobs (Script.upload_video [] "clip.mp4"
        (some (600 * 1024 * 1024)) true "j").store).length = (Script.list_jobs []).length) :=
  ⟨C4_validation_never_creates_record.1 [] "x.exe" 5 true "j" (.ok "u") (.ok "t")
      (fun _ => .pending) (Or.inl (by decide)),
   C4_validation_never_creates_record.2 [] "clip.mp4" (some (600 * 1024 * 1024)) true "j"
      (Or.inr ⟨600 * 1024 * 1024, rfl, by norm_num [Script.MAX_CONTENT_LENGTH]⟩)⟩

/-- C5: the completion client of both variants performs at most
`max_retries` provider calls; when every attempt fails it returns `None`
(the `Unavailable` value) to its caller instead of raising, after sleeping
between consecutive attempts (2s in the serverless variant; `2 ** attempt`
seconds, i.e. 1s then 2s, in the worker variant). -/
theorem C5_completion_client_retries :
    (∀ oracle : Nat → Except Unit String,
        (Api.get_llama_response oracle).2.1 ≤ 2 ∧
        ((∀ k, k < 2 → oracle k = .error ()) →
          Api.get_llama_response oracle = (none, 2, [2]))) ∧
    (∀ oracle : Nat → Except String String,
        (Script.get_llama_response oracle).2.1 ≤ 3 ∧
        ((∀ k, k < 3 → isErr (oracle k) = true) →
          (Script.get_llama_response oracle).1 = none ∧
          (Script.get_llama_response oracle).2.1 = 3 ∧
          (Script.get_llama_response oracle).2.2 = [1, 2])) := by
  constructor
  · intro oracle
    constructor
    · unfold Api.get_llama_response Api.llamaAux
      cases h0 : oracle 0 <;> cases h1 : oracle 1 <;>
        simp [Api.llamaAux, h0, h1]
    · intro hall
      have h0 := hall 0 (by norm_num)
      have h1 := hall 1 (by norm_num)
      unfold Api.get_llama_response Api.llamaAux
      simp [Api.llamaAux, h0, h1]
  · intro oracle
    constructor
    · unfold Script.get_llama_response Script.llamaAux
      cases h0 : oracle 0 <;> cases h1 : oracle 1 <;> cases h2 : oracle 2 <;>
        simp [Script.llamaAux, h0, h1, h2]
    · intro hall
      obtain ⟨e0, h0⟩ : ∃ e, oracle 0 = .error e := by
        cases h : oracle 0
        · exact ⟨_, rfl⟩
        · exact absurd (hall 0 (by norm_num)) (by simp [h, isErr])
      obtain ⟨e1, h1⟩ : ∃ e, oracle 1 = .error e := by
        cases h : oracle 1
        · exact ⟨_, rfl⟩
        · exact absurd (hall 1 (by norm_num)) (by simp [h, isErr])
      obtain ⟨e2, h2⟩ : ∃ e, oracle 2 = .error e := by
        cases h : oracle 2
        · exact ⟨_, rfl⟩
        · exact absurd (hall 2 (by norm_num)) (by simp [h, isErr])
      unfold Script.get_llama_response Script.llamaAux
      simp [Script.llamaAux, h0, h1, h2]

/-- Witness for C5: a provider double that always fails. -/
theorem C5_completion_client_retries_witness :
    Api.get_llama_response (fun _ => .error ()) = (none, 2, [2]) ∧
    (Script.get_llama_response (fun _ => .error "boom")).1 = none ∧
    (Script.get_llama_response (fun _ => .error "boom")).2.1 = 3 ∧
    (Script.get_llama_response (fun _ => .error "boom")).2.2 = [1, 2] :=
  ⟨(C5_completion_client_retries.1 (fun _ => .error ())).2 (fun _ _ => rfl),
   (C5_completion_client_retries.2 (fun _ => .error "boom")).2 (fun _ _ => rfl)⟩

/-! ### Polling-loop lemmas -/

theorem pollAux_count_le (oracle : Nat → Api.PollOut) :
    ∀ fuel k, (Api.pollAux oracle k fuel).2 ≤ fuel := by
  intro fuel
  induction fuel with
  | zero => intro k; simp [Api.pollAux]
  | succ f ih =>
    intro k
    have hle := ih (k + 1)
    unfold Api.pollAux
    cases h : oracle k with
    | completed srtOk t w => simp
    | errorStatus =>
      split_ifs with hb
      · simp
      · simpa using Nat.succ_le_succ hle
    | exn =>
      split_ifs with hb
      · simp
      · simpa using Nat.succ_le_succ hle
    | pending => simpa using Nat.succ_le_succ hle

theorem pollAux_timeout_full (oracle : Nat → Api.PollOut) :
    ∀ fuel k,
      (Api.pollAux oracle k fuel).1 = .error ⟨408, "Transcription timeout"⟩ →
      (Api.pollAux oracle k fuel).2 = fuel := by
  intro fuel
  induction fuel with
  | zero => intro k _; rfl
  | succ f ih =>
    intro k h
    unfold Api.pollAux at h ⊢
    cases ho : oracle k with
    | completed srtOk t w => rw [ho] at h; simp at h
    | errorStatus =>
      rw [ho] at h
      dsimp only at h ⊢
      split_ifs at h ⊢ with hb
      · simp at h
      · simpa using congrArg Nat.succ (ih (k + 1) (by simpa using h))
    | exn =>
      rw [ho] at h
      dsimp only at h ⊢
      split_ifs at h ⊢ with hb
      · simp at h
      · simpa using congrArg Nat.succ (ih (k + 1) (by simpa using h))
    | pending =>
      rw [ho] at h
      dsimp only at h ⊢
      simpa using congrArg Nat.succ (ih (k + 1) (by simpa using h))

theorem pollAux_completes (oracle : Nat → Api.PollOut) (m : Nat) (t : String)
    (hp : ∀ j, j < m → oracle j = .pending)
    (hm : oracle m = .completed true t []) :
    ∀ fuel k, k + fuel = 60 → k ≤ m → m < 60 →
      Api.pollAux oracle k fuel = (.ok t, m - k + 1) := by
  intro fuel
  induction fuel with
  | zero => intro k h60 hkm hm60; omega
  | succ f ih =>
    intro k h60 hkm hm60
    by_cases hk : k = m
    · subst hk
      unfold Api.pollAux
      rw [hm]
      simp
    · have hklt : k < m := lt_of_le_of_ne hkm hk
      have hpend : oracle k = .pending := hp k hklt
      unfold Api.pollAux
      rw [hpend]
      rw [ih (k + 1) (by omega) (by omega) hm60]
      have : m - (k + 1) + 1 + 1 = m - k + 1 := by omega
      simp [this]

theorem pollSrt_never_terminates (fuel k : Nat) :
    Script.pollSrt (fun _ => false) fuel k = none := by
  induction fuel generalizing k with
  | zero => rfl
  | succ f ih => simp [Script.pollSrt, ih]

/-! ### C2 -/

/-- C2 is corrected by this theorem.  In the serverless variant the polling
loop probes at a fixed 5-second interval and always terminates within the
300-second budget (at most 60 probes); a timeout error is produced only
when the whole budget has elapsed (exactly 60 probes, never before); with a
provider double that never completes, the loop raises
`HTTPException(408, "Transcription timeout")` after exactly 60 probes — but
the job record is left with status `"transcribing"`: the timeout does not
transition the job to an error state, because `transcribe_file` re-raises
`HTTPException`s without updating the record.  In the worker variant the
polling loop has no budget at all: with a provider that never returns
HTTP 200 it is still running after any number of probes. -/
theorem C2_polling_budget_amended :
    (∀ oracle : Nat → Api.PollOut,
        (Api.get_transcription_result oracle).2 ≤ 60) ∧
    (∀ oracle : Nat → Api.PollOut,
        (Api.get_transcription_result oracle).1
            = .error ⟨408, "Transcription timeout"⟩ →
        (Api.get_transcription_result oracle).2 = 60) ∧
    (Api.get_transcription_result (fun _ => .pending)
        = (.error ⟨408, "Transcription timeout"⟩, 60)) ∧
    ((Api.transcribe_file [] "clip.mp4" 5 true "j1" (.ok "u") (.ok "tid")
        (fun _ => .pending)).store.lookup "j1"
        = some ⟨"transcribing", "Transcription in progress...", "clip.mp4", none⟩) ∧
    (∀ fuel k : Nat, Script.pollSrt (fun _ => false) fuel k = none) := by
  refine ⟨?_, ?_, by decide, by decide, fun fuel k => pollSrt_never_terminates fuel k⟩
  · intro oracle
    exact pollAux_count_le oracle 60 0
  · intro oracle h
    exact pollAux_timeout_full oracle 60 0 h

/-- Witness for C2 (amended), discharging the timeout-only-at-full-budget
hypothesis at the never-completing provider double. -/
theorem C2_polling_budget_amended_witness :
    (Api.get_transcription_result (fun _ => .pending)).2 = 60 :=
  C2_polling_budget_amended.2.1 (fun _ => .pending) (by decide)

/-- Counterexample to C2 as stated: with a provider that never reports a
terminal outcome, the request fails with the 408 timeout after the budget,
but the job never transitions to an error status — its record stays
`"transcribing"` and `"error"` is never written. -/
theorem C2_counterexample_no_error_transition :
    (Api.transcribe_file [] "clip.mp4" 5 true "j1" (.ok "u") (.ok "tid")
        (fun _ => .pending)).result = .error ⟨408, "Transcription timeout"⟩ ∧
    (Api.transcribe_file [] "clip.mp4" 5 true "j1" (.ok "u") (.ok "tid")
        (fun _ => .pending)).store.lookup "j1"
        = some ⟨"transcribing", "Transcription in progress...", "clip.mp4", none⟩ ∧
    ¬ "error" ∈ (Api.transcribe_file [] "clip.mp4" 5 true "j1" (.ok "u") (.ok "tid")
        (fun _ => .pending)).statusWrites := by
  decide

/-! ### C1 -/

/-- C1 is corrected by this theorem.  In the worker variant (`src/script.py`)
the claim holds: a valid submission creates the job record in the initial
`"queued"` state, schedules the pipeline as a background task (run only
after the response is sent), performs no pipeline call during the request,
and returns the job id.  In the serverless variant (`src/api/index.py`) it
fails: the handler performs upload, transcription submission and polling
synchronously before returning — its event list starts with the upload call
and its first status write is `"uploading"`, not a queued state. -/
theorem C1_submission_amended :
    (∀ (store : JobMap Script.Job) (filename : String) (s : Nat)
        (saveOk : Bool) (jobId : String),
        allowed_file Script.ALLOWED_EXTENSIONS filename = true →
        s ≤ Script.MAX_CONTENT_LENGTH →
        saveOk = true →
        Script.upload_video store filename (some s) saveOk jobId =
          ⟨.ok jobId,
            store.set jobId
              ⟨"queued", "Video uploaded successfully, processing queued..."⟩,
            some jobId, []⟩) ∧
    (∀ (store : JobMap Api.Job) (filename : String) (size : Nat) (jobId : String)
        (uploadRes submitRes : Except String String) (oracle : Nat → Api.PollOut),
        allowed_file Api.ALLOWED_EXTENSIONS filename = true →
        size ≤ Api.MAX_CONTENT_LENGTH →
        (Api.transcribe_file store filename size true jobId
            uploadRes submitRes oracle).events.head? = some .upload ∧
        (Api.transcribe_file store filename size true jobId
            uploadRes submitRes oracle).statusWrites.head? = some "uploading") := by
  constructor
  · intro store filename s saveOk jobId hA hs hsave
    have hne : ¬ filename = "" := by
      intro he
      rw [he] at hA
      exact absurd hA (by decide)
    subst hsave
    simp [Script.upload_video, hne, hA, Nat.not_lt.mpr hs]
  · intro store filename size jobId uploadRes submitRes oracle hA hsize
    have hne : ¬ filename = "" := by
      intro he
      rw [he] at hA
      exact absurd hA (by decide)
    unfold Api.transcribe_file
    rw [if_neg hne, if_neg (by simp [hA]), if_neg (by simp), if_neg (Nat.not_lt.mpr hsize)]
    rcases uploadRes with e | u
    · exact ⟨rfl, rfl⟩
    · rcases submitRes with e | t
      · exact ⟨rfl, rfl⟩
      · rcases h : (Api.get_transcription_result oracle).1 with e | srt <;>
          simp [h]

/-- Witness for C1 (amended): a concrete valid `clip.mp4` submission against
both variants. -/
theorem C1_submission_amended_witness :
    Script.upload_video [] "clip.mp4" (some 5) true "j1" =
      ⟨.ok "j1",
        JobMap.set [] "j1"
          ⟨"queued", "Video uploaded successfully, processing queued..."⟩,
        some "j1", []⟩ ∧
    (Api.transcribe_file [] "clip.mp4" 5 true "j1" (.ok "u") (.ok "tid")
        (fun _ => .completed true "text" [])).events.head? = some .upload ∧
    (Api.transcribe_file [] "clip.mp4" 5 true "j1" (.ok "u") (.ok "tid")
        (fun _ => .completed true "text" [])).statusWrites.head? = some "uploading" :=
  ⟨C1_submission_amended.1 [] "clip.mp4" 5 true "j1" (by decide) (by decide) rfl,
   C1_submission_amended.2 [] "clip.mp4" 5 "j1" (.ok "u") (.ok "tid")
     (fun _ => .completed true "text" []) (by decide) (by decide)⟩

/-- Counterexample to C1 as stated: in the serverless variant a valid
submission runs the whole pipeline (upload, submission, one poll) before
the handler returns, and the record is created in `"uploading"` state, not
a queued one. -/
theorem C1_counterexample_pipeline_before_return :
    (Api.transcribe_file [] "clip.mp4" 5 true "j1" (.ok "u") (.ok "tid")
        (fun _ => .completed true "text" [])).events
        = [.upload, .submit, .poll] ∧
    (Api.transcribe_file [] "clip.mp4" 5 true "j1" (.ok "u") (.ok "tid")
        (fun _ => .completed true "text" [])).statusWrites
        = ["uploading", "transcribing", "completed"] ∧
    (Api.transcribe_file [] "clip.mp4" 5 true "j1" (.ok "u") (.ok "tid")
        (fun _ => .completed true "text" [])).result = .ok "j1" := by
  decide

/-! ### C6 -/

/-- C6: deleting an absent id returns `NotFound` and changes nothing
(idempotent failure mode); after a successful delete, the record is gone —
status reads, artifact downloads and the jobs listing all report the id as
absent (404) — and, in the worker variant, the job's on-disk artifacts
(uploaded media, SRT file, rendered video) are removed as well.  (In the
serverless variant artifacts live inside the record itself and are removed
with it.) -/
theorem C6_delete_job :
    (∀ (store : JobMap Api.Job) (id : String),
        store.lookup id = none →
        Api.delete_job store id = (.error ⟨404, "Job not found"⟩, store)) ∧
    (∀ (store : JobMap Api.Job) (id : String) (j : Api.Job),
        store.lookup id = some j →
        (Api.delete_job store id).1 = .ok ("Job " ++ id ++ " deleted successfully") ∧
        (Api.delete_job store id).2.lookup id = none ∧
        Api.get_job_status (Api.delete_job store id).2 id
          = .error ⟨404, "Job not found"⟩ ∧
        Api.download_srt (Api.delete_job store id).2 id
          = .error ⟨404, "Job not found"⟩ ∧
        ¬ id ∈ (Api.delete_job store id).2.keys) ∧
    (∀ (store : JobMap Script.Job) (files : List String) (id : String),
        store.lookup id = none →
        Script.delete_job store files id
          = (.error ⟨404, "Job ID not found"⟩, store, files)) ∧
    (∀ (store : JobMap Script.Job) (files : List String) (id : String) (j : Script.Job),
        store.lookup id = some j →
        (Script.delete_job store files id).1
          = .ok ("Job " ++ id ++ " and associated files deleted successfully") ∧
        (Script.delete_job store files id).2.1.lookup id = none ∧
        Script.get_status (Script.delete_job store files id).2.1 id
          = .error ⟨404, "Job ID not found"⟩ ∧
        Script.download_video (Script.delete_job store files id).2.1
          (Script.delete_job store files id).2.2 id = .error ⟨404, "Job ID not found"⟩ ∧
        Script.download_srt (Script.delete_job store files id).2.1
          (Script.delete_job store files id).2.2 id = .error ⟨404, "Job ID not found"⟩ ∧
        ¬ id ∈ (Script.delete_job store files id).2.1.keys ∧
        ¬ Script.srtPath id ∈ (Script.delete_job store files id).2.2 ∧
        ¬ Script.outPath id ∈ (Script.delete_job store files id).2.2 ∧
        ∀ p ∈ (Script.delete_job store files id).2.2,
          ¬ p.startsWith ("uploads/" ++ id ++ ".")) := by
  refine ⟨?_, ?_, ?_, ?_⟩
  · intro store id h
    unfold Api.delete_job
    rw [h]
  · intro store id j h
    unfold Api.delete_job
    rw [h]
    refine ⟨rfl, JobMap.lookup_erase store id, ?_, ?_, JobMap.not_mem_keys_erase store id⟩
    · unfold Api.get_job_status
      rw [JobMap.lookup_erase store id]
    · unfold Api.download_srt
      rw [JobMap.lookup_erase store id]
  · intro store files id h
    unfold Script.delete_job
    rw [h]
  · intro store files id j h
    unfold Script.delete_job
    rw [h]
    refine ⟨rfl, JobMap.lookup_erase store id, ?_, ?_, ?_,
      JobMap.not_mem_keys_erase store id, ?_, ?_, ?_⟩
    · unfold Script.get_status
      rw [JobMap.lookup_erase store id]
    · unfold Script.download_video
      rw [JobMap.lookup_erase store id]
    · unfold Script.download_srt
      rw [JobMap.lookup_erase store id]
    · intro hmem
      have := List.of_mem_filter hmem
      simp [Script.deletesPath] at this
    · intro hmem
      have := List.of_mem_filter hmem
      simp [Script.deletesPath] at this
    · intro p hp hpre
      have := List.of_mem_filter hp
      simp [Script.deletesPath] at this
      exact absurd hpre (by simp [this.1])

/-- Witness for C6 at a concrete store holding job `"a"` with its three
artifact files, plus the absent id `"b"`. -/
theorem C6_delete_job_witness :
    Api.delete_job [("a", (⟨"completed", "m", "f.mp4", some "x"⟩ : Api.Job))] "b"
      = (.error ⟨404, "Job not found"⟩,
          [("a", (⟨"completed", "m", "f.mp4", some "x"⟩ : Api.Job))]) ∧
    (Api.delete_job [("a", (⟨"completed", "m", "f.mp4", some "x"⟩ : Api.Job))] "a").2.lookup "a"
      = none ∧
    (Script.delete_job [("a", (⟨"completed", "m"⟩ : Script.Job))]
        ["uploads/a.mp4", "processed/a.srt", "processed/a_with_subtitles.mp4"] "a").1
      = .ok ("Job " ++ "a" ++ " and associated files deleted successfully") ∧
    ¬ Script.srtPath "a" ∈ (Script.delete_job [("a", (⟨"completed", "m"⟩ : Script.Job))]
        ["uploads/a.mp4", "processed/a.srt", "processed/a_with_subtitles.mp4"] "a").2.2 :=
  ⟨C6_delete_job.1 [("a", (⟨"completed", "m", "f.mp4", some "x"⟩ : Api.Job))] "b" (by decide),
   (C6_delete_job.2.1 [("a", (⟨"completed", "m", "f.mp4", some "x"⟩ : Api.Job))] "a"
      ⟨"completed", "m", "f.mp4", some "x"⟩ (by decide)).2.1,
   (C6_delete_job.2.2.2 [("a", (⟨"completed", "m"⟩ : Script.Job))]
      ["uploads/a.mp4", "processed/a.srt", "processed/a_with_subtitles.mp4"] "a"
      ⟨"completed", "m"⟩ (by decide)).1,
   (C6_delete_job.2.2.2 [("a", (⟨"completed", "m"⟩ : Script.Job))]
      ["uploads/a.mp4", "processed/a.srt", "processed/a_with_subtitles.mp4"] "a"
      ⟨"completed", "m"⟩ (by decide)).2.2.2.2.2.2.1⟩

/-! ### C7 -/

/-- C7 is corrected by this theorem.  For a known job whose pipeline has not
yet reached the artifact-producing stage, both variants reject the download
as not-yet-ready (HTTP 400), distinct from not-found; an unknown or deleted
id yields 404.  However, not-found is *not* reserved for unknown ids: a
known job can also yield 404 — in the serverless variant when the job is
completed but its `srt_content` is falsy (absent or the empty string), and
in the worker variant when the job's status admits the download but the
artifact file is missing on disk. -/
theorem C7_download_rejections_amended :
    (∀ (store : JobMap Api.Job) (id : String) (j : Api.Job),
        store.lookup id = some j → j.status ≠ "completed" →
        Api.download_srt store id = .error ⟨400, "Transcription not completed"⟩) ∧
    (∀ (store : JobMap Api.Job) (id : String),
        store.lookup id = none →
        Api.download_srt store id = .error ⟨404, "Job not found"⟩) ∧
    (∀ (store : JobMap Api.Job) (id : String) (j : Api.Job),
        store.lookup id = some j → j.status = "completed" →
        (j.srt_content = none ∨ j.srt_content = some "") →
        Api.download_srt store id = .error ⟨404, "SRT content not available"⟩) ∧
    (∀ (store : JobMap Script.Job) (files : List String) (id : String) (j : Script.Job),
        store.lookup id = some j →
        ¬ (j.status = "completed" ∨ j.status = "embedding" ∨ j.status = "rendering") →
        Script.download_srt store files id = .error ⟨400, "SRT file not ready yet"⟩) ∧
    (∀ (store : JobMap Script.Job) (files : List String) (id : String),
        store.lookup id = none →
        Script.download_srt store files id = .error ⟨404, "Job ID not found"⟩ ∧
        Script.download_video store files id = .error ⟨404, "Job ID not found"⟩) ∧
    (∀ (store : JobMap Script.Job) (files : List String) (id : String) (j : Script.Job),
        store.lookup id = some j →
        (j.status = "completed" ∨ j.status = "embedding" ∨ j.status = "rendering") →
        ¬ Script.srtPath id ∈ files →
        Script.download_srt store files id = .error ⟨404, "SRT file not found"⟩) ∧
    (∀ (store : JobMap Script.Job) (files : List String) (id : String) (j : Script.Job),
        store.lookup id = some j → j.status ≠ "completed" →
        Script.download_video store files id
          = .error ⟨400, "Processing not completed yet"⟩) ∧
    (∀ (store : JobMap Script.Job) (files : List String) (id : String) (j : Script.Job),
        store.lookup id = some j → j.status = "completed" →
        ¬ Script.outPath id ∈ files →
        Script.download_video store files id
          = .error ⟨404, "Processed video file not found"⟩) := by
  refine ⟨?_, ?_, ?_, ?_, ?_, ?_, ?_, ?_⟩
  · intro store id j h hs
    unfold Api.download_srt
    rw [h]
    dsimp only
    rw [if_pos hs]
  · intro store id h
    unfold Api.download_srt
    rw [h]
  · intro store id j h hs hc
    unfold Api.download_srt
    rw [h]
    dsimp only
    rw [if_neg (by simp [hs])]
    rcases hc with hc | hc <;> rw [hc]
    simp
  · intro store files id j h hs
    unfold Script.download_srt
    rw [h]
    dsimp only
    rw [if_pos hs]
  · intro store files id h
    constructor
    · unfold Script.download_srt
      rw [h]
    · unfold Script.download_video
      rw [h]
  · intro store files id j h hs hf
    unfold Script.download_srt
    rw [h]
    dsimp only
    rw [if_neg (not_not.mpr hs), if_pos hf]
  · intro store files id j h hs
    unfold Script.download_video
    rw [h]
    dsimp only
    rw [if_pos hs]
  · intro store files id j h hs hf
    unfold Script.download_video
    rw [h]
    dsimp only
    rw [if_neg (by simp [hs]), if_pos hf]

/-- Witness for C7 (amended) at concrete stores: a transcribing job is
rejected 400, an unknown id 404, a completed job with empty transcript 404,
and a completed worker-variant job with its SRT file missing 404. -/
theorem C7_download_rejections_amended_witness :
    Api.download_srt [("a", (⟨"transcribing", "m", "f.mp4", none⟩ : Api.Job))] "a"
      = .error ⟨400, "Transcription not completed"⟩ ∧
    Api.download_srt [] "zzz" = .error ⟨404, "Job not found"⟩ ∧
    Api.download_srt [("a", (⟨"completed", "m", "f.mp4", some ""⟩ : Api.Job))] "a"
      = .error ⟨404, "SRT content not available"⟩ ∧
    Script.download_srt [("a", (⟨"translating", "m"⟩ : Script.Job))] [] "a"
      = .error ⟨400, "SRT file not ready yet"⟩ ∧
    Script.download_srt [("a", (⟨"completed", "m"⟩ : Script.Job))] [] "a"
      = .error ⟨404, "SRT file not found"⟩ :=
  ⟨C7_download_rejections_amended.1 _ "a" ⟨"transcribing", "m", "f.mp4", none⟩
     (by decide) (by decide),
   C7_download_rejections_amended.2.1 [] "zzz" (by decide),
   C7_download_rejections_amended.2.2.1 _ "a" ⟨"completed", "m", "f.mp4", some ""⟩
     (by decide) rfl (Or.inr rfl),
   C7_download_rejections_amended.2.2.2.1 _ [] "a" ⟨"translating", "m"⟩
     (by decide) (by decide),
   C7_download_rejections_amended.2.2.2.2.2.1 _ [] "a" ⟨"completed", "m"⟩
     (by decide) (Or.inl rfl) (by decide)⟩

/-- Counterexample to C7 as stated: a *known* (not deleted) job can draw a
not-found rejection.  Reached through the pipeline itself: the provider
completes on the first poll, the `/srt` follow-up fails, and the fallback
`convert_to_srt` of an empty word list yields `""`; the job is then
`completed` with an empty transcript and `download_srt` answers 404, not a
not-yet-ready 400 — although the id is present in the store. -/
theorem C7_counterexample_known_job_not_found :
    (Api.transcribe_file [] "clip.mp4" 5 true "j1" (.ok "u") (.ok "tid")
        (fun _ => .completed false "ignored" [])).store.lookup "j1"
      = some ⟨"completed", "Transcription completed successfully", "clip.mp4", some ""⟩ ∧
    Api.download_srt
        (Api.transcribe_file [] "clip.mp4" 5 true "j1" (.ok "u") (.ok "tid")
          (fun _ => .completed false "ignored" [])).store "j1"
      = .error ⟨404, "SRT content not available"⟩ := by
  decide

/-! ### C8 -/

/-- C8 is corrected by this theorem.  For every poll attempt `k` with
`1 ≤ k ≤ 60` (= maxPolls under the 300s/5s budget) at which the provider
reports completion with transcript `t`, the job reaches `completed`
carrying exactly `t` as its `srt_content`, and — provided `t` is non-empty —
downloading the transcript returns exactly `t`.  (For the empty transcript
the job still completes carrying `""`, but the download endpoint treats the
falsy content as unavailable and rejects with 404; see the
counterexample.) -/
theorem C8_completion_carries_exact_transcript (k : Nat) (t : String)
    (store : JobMap Api.Job) (jobId : String) (hk1 : 1 ≤ k) (hk60 : k ≤ 60) :
    (Api.transcribe_file store "clip.mp4" 5 true jobId (.ok "u") (.ok "tid")
        (fun j => if j = k - 1 then .completed true t [] else .pending)).store.lookup jobId
      = some ⟨"completed", "Transcription completed successfully", "clip.mp4", some t⟩ ∧
    (Api.transcribe_file store "clip.mp4" 5 true jobId (.ok "u") (.ok "tid")
        (fun j => if j = k - 1 then .completed true t [] else .pending)).result
      = .ok jobId ∧
    (t ≠ "" →
      Api.download_srt
        (Api.transcribe_file store "clip.mp4" 5 true jobId (.ok "u") (.ok "tid")
          (fun j => if j = k - 1 then .completed true t [] else .pending)).store jobId
        = .ok t) := by
  have hores : Api.get_transcription_result
      (fun j => if j = k - 1 then Api.PollOut.completed true t [] else .pending)
      = (.ok t, k) := by
    have := pollAux_completes
      (fun j => if j = k - 1 then Api.PollOut.completed true t [] else .pending)
      (k - 1) t
      (fun j hj => by simp [Nat.ne_of_lt hj])
      (by simp)
      60 0 (by omega) (by omega) (by omega)
    unfold Api.get_transcription_result
    rw [this]
    congr 1
    omega
  have hrun : (Api.transcribe_file store "clip.mp4" 5 true jobId (.ok "u") (.ok "tid")
      (fun j => if j = k - 1 then .completed true t [] else .pending))
      = ⟨.ok jobId,
          ((store.set jobId
              ⟨"uploading", "Uploading file to transcription service...", "clip.mp4", none⟩).update
            jobId (fun j =>
              { j with status := "transcribing", message := "Transcription in progress..." })).update
            jobId (fun j =>
              { j with status := "completed",
                       message := "Transcription completed successfully",
                       srt_content := some t }),
          [.upload, .submit] ++ List.replicate k .poll,
          ["uploading", "transcribing", "completed"]⟩ := by
    unfold Api.transcribe_file
    rw [if_neg (by decide), if_neg (by decide), if_neg (by decide), if_neg (by decide)]
    dsimp only
    rw [hores]
  rw [hrun]
  have hlook : (((store.set jobId
      (⟨"uploading", "Uploading file to transcription service...", "clip.mp4", none⟩ : Api.Job)).update
        jobId (fun j =>
          { j with status := "transcribing", message := "Transcription in progress..." })).update
        jobId (fun j =>
          { j with status := "completed",
                   message := "Transcription completed successfully",
                   srt_content := some t })).lookup jobId
      = some ⟨"completed", "Transcription completed successfully", "clip.mp4", some t⟩ := by
    rw [JobMap.lookup_update, JobMap.lookup_update, JobMap.lookup_set]
    rfl
  refine ⟨hlook, rfl, ?_⟩
  intro ht
  unfold Api.download_srt
  rw [hlook]
  dsimp only
  rw [if_neg (by simp)]
  rw [if_neg ht]

/-- Witness for C8 (amended): the provider double completes on the second
poll with the specification's sample SRT text; the job completes carrying
it and the download returns it verbatim. -/
theorem C8_completion_carries_exact_transcript_witness :
    (Api.transcribe_file [] "clip.mp4" 5 true "j1" (.ok "u") (.ok "tid")
        (fun j => if j = 2 - 1 then
          .completed true "1\n00:00:00,000 --> 00:00:01,000\nHello\n\n" []
        else .pending)).store.lookup "j1"
      = some ⟨"completed", "Transcription completed successfully", "clip.mp4",
          some "1\n00:00:00,000 --> 00:00:01,000\nHello\n\n"⟩ ∧
    Api.download_srt
        (Api.transcribe_file [] "clip.mp4" 5 true "j1" (.ok "u") (.ok "tid")
          (fun j => if j = 2 - 1 then
            .completed true "1\n00:00:00,000 --> 00:00:01,000\nHello\n\n" []
          else .pending)).store "j1"
      = .ok "1\n00:00:00,000 --> 00:00:01,000\nHello\n\n" := by
  have h := C8_completion_carries_exact_transcript 2
    "1\n00:00:00,000 --> 00:00:01,000\nHello\n\n" [] "j1" (by decide) (by decide)
  exact ⟨h.1, h.2.2 (by decide)⟩

/-- Counterexample to C8 as stated: with completion on the first poll and
the empty transcript `t = ""`, the job completes carrying `""` but the
download does not return `t` — it rejects with 404. -/
theorem C8_counterexample_empty_transcript :
    (Api.transcribe_file [] "clip.mp4" 5 true "j1" (.ok "u") (.ok "tid")
        (fun j => if j = 0 then .completed true "" [] else .pending)).store.lookup "j1"
      = some ⟨"completed", "Transcription completed successfully", "clip.mp4", some ""⟩ ∧
    Api.download_srt
        (Api.transcribe_file [] "clip.mp4" 5 true "j1" (.ok "u") (.ok "tid")
          (fun j => if j = 0 then .completed true "" [] else .pending)).store "j1"
      = .error ⟨404, "SRT content not available"⟩ := by
  decide

/-! ### C3 -/

theorem api_statusWrites_classified (store : JobMap Api.Job) (filename : String)
    (size : Nat) (hasKey : Bool) (jobId : String)
    (uploadRes submitRes : Except String String) (oracle : Nat → Api.PollOut) :
    (Api.transcribe_file store filename size hasKey jobId
        uploadRes submitRes oracle).statusWrites = [] ∨
    (Api.transcribe_file store filename size hasKey jobId
        uploadRes submitRes oracle).statusWrites = ["uploading"] ∨
    (Api.transcribe_file store filename size hasKey jobId
        uploadRes submitRes oracle).statusWrites = ["uploading", "transcribing"] ∨
    (Api.transcribe_file store filename size hasKey jobId
        uploadRes submitRes oracle).statusWrites
      = ["uploading", "transcribing", "completed"] := by
  unfold Api.transcribe_file
  split_ifs
  all_goals try exact Or.inl rfl
  all_goals
    rcases uploadRes with e | u
    · exact Or.inr (Or.inl rfl)
    · dsimp only
      rcases submitRes with e | tid
      · exact Or.inr (Or.inr (Or.inl rfl))
      · dsimp only
        cases h : (Api.get_transcription_result oracle).1 with
        | error e => exact Or.inr (Or.inr (Or.inl rfl))
        | ok srt => exact Or.inr (Or.inr (Or.inr rfl))

/-- C3 is corrected by this theorem.  In both variants every observed status
sequence is non-decreasing under the pipeline order (with `rendering`
belonging to the `Embedding` stage) and a terminal status (`Completed` or
`Error`) is only ever the last status written — it never changes afterwards.
In the worker variant `Error` is reachable from every non-terminal state, as
the claim says.  In the serverless variant, however, the `"error"` status is
never written at all: every post-creation failure raises an `HTTPException`
that the handler re-raises without updating the record — so `Error` is
unreachable from the states of that variant. -/
theorem C3_status_order_amended :
    (∀ b1 b2 b3 b4 b5 b6 b7 b8 b9 : Bool,
        monotoneRanks ((Script.statusTrace b1 b2 b3 b4 b5 b6 b7 b8 b9).map toSpec)
          = true ∧
        ((Script.statusTrace b1 b2 b3 b4 b5 b6 b7 b8 b9).map toSpec).dropLast.all
          (fun s => ! s.isTerminal) = true ∧
        ((Script.statusTrace b1 b2 b3 b4 b5 b6 b7 b8 b9).map toSpec).head?
          = some .Queued) ∧
    (∀ s : SpecState, s.isTerminal = true ∨
        ∃ b1 b2 b3 b4 b5 b6 b7 b8 b9 : Bool,
          s ∈ (Script.statusTrace b1 b2 b3 b4 b5 b6 b7 b8 b9).map toSpec ∧
          ((Script.statusTrace b1 b2 b3 b4 b5 b6 b7 b8 b9).map toSpec).getLast?
            = some .Error) ∧
    (∀ (store : JobMap Api.Job) (filename : String) (size : Nat) (hasKey : Bool)
        (jobId : String) (uploadRes submitRes : Except String String)
        (oracle : Nat → Api.PollOut),
        monotoneRanks ((Api.transcribe_file store filename size hasKey jobId
            uploadRes submitRes oracle).statusWrites.map toSpec) = true ∧
        ((Api.transcribe_file store filename size hasKey jobId
            uploadRes submitRes oracle).statusWrites.map toSpec).dropLast.all
          (fun s => ! s.isTerminal) = true) ∧
    ¬ Api.errorWritten := by
  refine ⟨by decide, by decide, ?_, ?_⟩
  · intro store filename size hasKey jobId uploadRes submitRes oracle
    rcases api_statusWrites_classified store filename size hasKey jobId
        uploadRes submitRes oracle with h | h | h | h <;>
      rw [h] <;> exact ⟨by decide, by decide⟩
  · rintro ⟨store, filename, size, hasKey, jobId, uploadRes, submitRes, oracle, hmem⟩
    rcases api_statusWrites_classified store filename size hasKey jobId
        uploadRes submitRes oracle with h | h | h | h <;>
      rw [h] at hmem <;> simp at hmem

/-- Counterexample to C3 as stated: in the serverless variant, `Error` is
not reachable from any state — no execution ever writes `"error"` — even
though `UploadingMedia` and `Transcribing` are non-terminal states the
variant does occupy (shown by a concrete run that times out while
transcribing). -/
theorem C3_counterexample_error_unreachable :
    ¬ Api.errorWritten ∧
    (Api.transcribe_file [] "clip.mp4" 5 true "j1" (.ok "u") (.ok "tid")
        (fun _ => .pending)).statusWrites = ["uploading", "transcribing"] := by
  constructor
  · rintro ⟨store, filename, size, hasKey, jobId, uploadRes, submitRes, oracle, hmem⟩
    rcases api_statusWrites_classified store filename size hasKey jobId
        uploadRes submitRes oracle with h | h | h | h <;>
      rw [h] at hmem <;> simp at hmem
  · decide

/-! ### C10: `convert_to_srt` renders consecutive 10-word cues -/

theorem endVal_cons (w : Word) (c : List Word) (h : c ≠ []) :
    endVal (w :: c) = endVal c := by
  obtain ⟨x, xs, rfl⟩ : ∃ x xs, c = x :: xs := by
    cases c with
    | nil => exact absurd rfl h
    | cons x xs => exact ⟨x, xs, rfl⟩
  unfold endVal
  rw [List.getLast?_cons_cons]

theorem stVal_cons (st : Option ℚ) (w : Word) (c : List Word) :
    stVal st (w :: c) = st.getD (w.start.getD 0) := by
  cases st <;> rfl

theorem srtLoop_cons (n i idx : Nat) (cur : String) (st : Option ℚ)
    (w : Word) (ws : List Word) :
    srtLoop n i idx cur st (w :: ws)
      = if (i + 1) % 10 = 0 ∨ i = n - 1 then
          (toString idx ++ "\n"
            ++ format_time_srt (st.getD (w.start.getD 0)) ++ " --> "
              ++ format_time_srt (w.stop.getD (w.start.getD 0 + 1)) ++ "\n"
            ++ (cur ++ w.text ++ " ").trim ++ "\n\n")
            ++ srtLoop n (i + 1) (idx + 1) "" none ws
        else
          srtLoop n (i + 1) idx (cur ++ w.text ++ " ")
            (some (st.getD (w.start.getD 0))) ws := rfl

theorem srtLoop_chunk (n : Nat) (c : List Word) :
    ∀ (i idx : Nat) (cur : String) (st : Option ℚ) (rest : List Word),
      c ≠ [] →
      (∀ j, i ≤ j → j + 1 < i + c.length → ¬((j + 1) % 10 = 0 ∨ j = n - 1)) →
      ((i + c.length) % 10 = 0 ∨ i + c.length - 1 = n - 1) →
      srtLoop n i idx cur st (c ++ rest)
        = cueString idx cur st c ++ srtLoop n (i + c.length) (idx + 1) "" none rest := by
  induction c with
  | nil => intro _ _ _ _ _ hc; exact absurd rfl hc
  | cons w c' ih =>
    intro i idx cur st rest _ hinner hb
    cases c' with
    | nil =>
      have hcond : (i + 1) % 10 = 0 ∨ i = n - 1 := by
        simpa using hb
      rw [List.cons_append, List.nil_append, srtLoop_cons, if_pos hcond]
      unfold cueString
      rw [stVal_cons]
      have htext : textAcc cur [w] = cur ++ w.text ++ " " := rfl
      have hend : endVal [w] = w.stop.getD (w.start.getD 0 + 1) := by
        unfold endVal
        rfl
      rw [htext, hend]
      rfl
    | cons w2 c'' =>
      have hnotb : ¬((i + 1) % 10 = 0 ∨ i = n - 1) := by
        refine hinner i (le_refl i) ?_
        simp [List.length_cons]
      rw [List.cons_append, srtLoop_cons, if_neg hnotb]
      rw [ih (i + 1) idx (cur ++ w.text ++ " ") (some (st.getD (w.start.getD 0)))
        rest (by simp) ?_ ?_]
      · have hcue : cueString idx (cur ++ w.text ++ " ")
            (some (st.getD (w.start.getD 0))) (w2 :: c'')
            = cueString idx cur st (w :: w2 :: c'') := by
          unfold cueString
          rw [stVal_cons, stVal_cons]
          rw [endVal_cons w (w2 :: c'') (by simp)]
          rfl
        rw [hcue]
        have harith : i + 1 + (w2 :: c'').length = i + (w :: w2 :: c'').length := by
          simp [List.length_cons]
          omega
        rw [harith]
      · intro j hj1 hj2
        refine hinner j (by omega) ?_
        simp [List.length_cons] at hj2 ⊢
        omega
      · rcases hb with hb | hb
        · left
          simp [List.length_cons] at hb ⊢
          omega
        · right
          simp [List.length_cons] at hb ⊢
          omega

theorem chunksGo_fuel : ∀ (f1 f2 : Nat) (l : List Word),
    l.length ≤ f1 → l.length ≤ f2 → chunksGo f1 l = chunksGo f2 l := by
  intro f1
  induction f1 with
  | zero =>
    intro f2 l h1 h2
    have : l = [] := List.length_eq_zero.mp (Nat.le_zero.mp h1)
    subst this
    cases f2 <;> rfl
  | succ f ih =>
    intro f2 l h1 h2
    cases l with
    | nil => cases f2 <;> rfl
    | cons w rest =>
      cases f2 with
      | zero => simp at h2
      | succ f2' =>
        unfold chunksGo
        have hlen : ((w :: rest).drop 10).length ≤ f := by
          simp only [List.length_drop, List.length_cons] at *
          omega
        have hlen2 : ((w :: rest).drop 10).length ≤ f2' := by
          simp only [List.length_drop, List.length_cons] at *
          omega
        rw [ih f2' _ hlen hlen2]

theorem chunks10_cons (l : List Word) (h : l ≠ []) :
    chunks10 l = l.take 10 :: chunks10 (l.drop 10) := by
  obtain ⟨w, rest, rfl⟩ : ∃ w rest, l = w :: rest := by
    cases l with
    | nil => exact absurd rfl h
    | cons w rest => exact ⟨w, rest, rfl⟩
  have hstep : chunks10 (w :: rest)
      = (w :: rest).take 10 :: chunksGo rest.length ((w :: rest).drop 10) := rfl
  rw [hstep]
  congr 1
  rw [show chunks10 ((w :: rest).drop 10)
      = chunksGo ((w :: rest).drop 10).length ((w :: rest).drop 10) from rfl]
  apply chunksGo_fuel
  · simp only [List.length_drop, List.length_cons]
    omega
  · exact le_refl _

theorem srtLoop_chunks : ∀ (fuel : Nat) (l : List Word) (n i idx : Nat),
    l.length ≤ fuel → l ≠ [] → i + l.length = n → i % 10 = 0 →
    srtLoop n i idx "" none l = renderCues idx (chunks10 l) := by
  intro fuel
  induction fuel with
  | zero =>
    intro l n i idx hf hne
    exact absurd (List.length_eq_zero.mp (Nat.le_zero.mp hf)) hne
  | succ fu ih =>
    intro l n i idx hf hne hn hi
    rw [chunks10_cons l hne]
    by_cases hlen : l.length ≤ 10
    · have htake : l.take 10 = l := List.take_of_length_le hlen
      have hdrop : l.drop 10 = [] := List.drop_eq_nil_of_le hlen
      rw [htake, hdrop]
      have := srtLoop_chunk n l i idx "" none [] hne ?_ ?_
      · rw [List.append_nil] at this
        rw [this]
        rfl
      · intro j hj1 hj2 hcond
        have hlpos : 1 ≤ l.length := by
          cases l with
          | nil => exact absurd rfl hne
          | cons _ _ => simp
        rcases hcond with hmod | hend <;> omega
      · right
        omega
    · push_neg at hlen
      have htake_len : (l.take 10).length = 10 := by
        rw [List.length_take]
        omega
      have htake_ne : l.take 10 ≠ [] := by
        intro hcon
        rw [hcon] at htake_len
        simp at htake_len
      have hdrop_len : (l.drop 10).length = l.length - 10 := List.length_drop 10 l
      have hdrop_ne : l.drop 10 ≠ [] := by
        intro hcon
        rw [hcon] at hdrop_len
        simp at hdrop_len
        omega
      have hsplit : l.take 10 ++ l.drop 10 = l := List.take_append_drop 10 l
      have hstep := srtLoop_chunk n (l.take 10) i idx "" none (l.drop 10) htake_ne ?_ ?_
      · rw [hsplit] at hstep
        rw [hstep, htake_len]
        have hrec := ih (l.drop 10) n (i + 10) (idx + 1)
          (by omega) hdrop_ne (by omega) (by omega)
        rw [hrec]
        rfl
      · intro j hj1 hj2 hcond
        rw [htake_len] at hj2
        rcases hcond with hmod | hend <;> omega
      · left
        rw [htake_len]
        omega

theorem chunksGo_nil (fuel : Nat) : chunksGo fuel ([] : List Word) = [] := by
  cases fuel <;> rfl

theorem chunksGo_mem : ∀ (fuel : Nat) (l c : List Word),
    l.length ≤ fuel → c ∈ chunksGo fuel l → c ≠ [] ∧ c.length ≤ 10 := by
  intro fuel
  induction fuel with
  | zero => intro l c _ hm; simp [chunksGo] at hm
  | succ fu ih =>
    intro l c hf hm
    cases l with
    | nil => simp [chunksGo] at hm
    | cons w rest =>
      unfold chunksGo at hm
      rcases List.mem_cons.mp hm with hc | hc
      · subst hc
        refine ⟨by simp, ?_⟩
        rw [List.length_take]
        omega
      · refine ih _ c ?_ hc
        simp only [List.length_drop, List.length_cons] at *
        omega

theorem chunksGo_flatten : ∀ (fuel : Nat) (l : List Word),
    l.length ≤ fuel → (chunksGo fuel l).flatten = l := by
  intro fuel
  induction fuel with
  | zero =>
    intro l hf
    have : l = [] := List.length_eq_zero.mp (Nat.le_zero.mp hf)
    subst this
    rfl
  | succ fu ih =>
    intro l hf
    cases l with
    | nil => rfl
    | cons w rest =>
      unfold chunksGo
      rw [List.flatten_cons]
      rw [ih _ (by simp only [List.length_drop, List.length_cons] at *; omega)]
      exact List.take_append_drop 10 (w :: rest)

theorem chunksGo_dropLast_len : ∀ (fuel : Nat) (l c : List Word),
    l.length ≤ fuel → c ∈ (chunksGo fuel l).dropLast → c.length = 10 := by
  intro fuel
  induction fuel with
  | zero => intro l c _ hm; simp [chunksGo] at hm
  | succ fu ih =>
    intro l c hf hm
    cases l with
    | nil => simp [chunksGo] at hm
    | cons w rest =>
      unfold chunksGo at hm
      by_cases hd : (w :: rest).drop 10 = []
      · rw [hd, chunksGo_nil] at hm
        simp at hm
      · have hlen10 : 10 < (w :: rest).length := by
          by_contra hc
          push_neg at hc
          exact hd (List.drop_eq_nil_of_le hc)
        have hdlen : ((w :: rest).drop 10).length ≤ fu := by
          simp only [List.length_drop, List.length_cons] at *
          omega
        have hne : chunksGo fu ((w :: rest).drop 10) ≠ [] := by
          obtain ⟨x, xs, hx⟩ : ∃ x xs, (w :: rest).drop 10 = x :: xs := by
            cases hdrop : (w :: rest).drop 10 with
            | nil => exact absurd hdrop hd
            | cons x xs => exact ⟨x, xs, rfl⟩
          obtain ⟨fu', rfl⟩ : ∃ fu', fu = fu' + 1 := by
            cases fu with
            | zero =>
              rw [hx] at hdlen
              simp at hdlen
            | succ fu' => exact ⟨fu', rfl⟩
          rw [hx]
          unfold chunksGo
          simp
        obtain ⟨c2, cs, hcs⟩ : ∃ c2 cs, chunksGo fu ((w :: rest).drop 10) = c2 :: cs := by
          cases hch : chunksGo fu ((w :: rest).drop 10) with
          | nil => exact absurd hch hne
          | cons c2 cs => exact ⟨c2, cs, rfl⟩
        rw [hcs] at hm
        rw [show ((w :: rest).take 10 :: c2 :: cs).dropLast
            = (w :: rest).take 10 :: (c2 :: cs).dropLast from rfl] at hm
        rcases List.mem_cons.mp hm with hc | hc
        · subst hc
          rw [List.length_take]
          omega
        · refine ih _ c hdlen ?_
          rw [hcs]
          exact hc

theorem pyMod_bounds (a b : ℚ) (hb : 0 < b) : 0 ≤ pyMod a b ∧ pyMod a b < b := by
  unfold pyMod
  have hbne : b ≠ 0 := hb.ne'
  have h1 : a - b * ⌊a / b⌋ = b * (a / b - ⌊a / b⌋) := by
    rw [mul_sub, mul_div_cancel₀ a hbne]
  constructor
  · rw [h1]
    apply mul_nonneg hb.le
    have := Int.floor_le (a / b)
    linarith
  · rw [h1]
    have h2 : a / b - ⌊a / b⌋ < 1 := by
      have := Int.lt_floor_add_one (a / b)
      linarith
    calc b * (a / b - ⌊a / b⌋) < b * 1 := by
          exact mul_lt_mul_of_pos_left h2 hb
      _ = b := mul_one b

theorem format_time_srt_shape (s : ℚ) (hs : 0 ≤ s) :
    ∃ hh mm ss ms : ℤ,
      format_time_srt s
        = pad2 hh ++ ":" ++ pad2 mm ++ ":" ++ pad2 ss ++ "," ++ pad3 ms ∧
      0 ≤ hh ∧ 0 ≤ mm ∧ mm < 60 ∧ 0 ≤ ss ∧ ss < 60 ∧ 0 ≤ ms ∧ ms < 1000 := by
  have h3600 := pyMod_bounds s 3600 (by norm_num)
  have h60 := pyMod_bounds s 60 (by norm_num)
  have h1 := pyMod_bounds s 1 (by norm_num)
  refine ⟨⌊s / 3600⌋, ⌊pyMod s 3600 / 60⌋, ⌊pyMod s 60⌋, ⌊pyMod s 1 * 1000⌋,
    rfl, ?_, ?_, ?_, ?_, ?_, ?_, ?_⟩
  · exact Int.floor_nonneg.mpr (div_nonneg hs (by norm_num))
  · exact Int.floor_nonneg.mpr (div_nonneg h3600.1 (by norm_num))
  · apply Int.floor_lt.mpr
    push_cast
    rw [div_lt_iff₀ (by norm_num : (0:ℚ) < 60)]
    calc pyMod s 3600 < 3600 := h3600.2
      _ = 60 * 60 := by norm_num
  · exact Int.floor_nonneg.mpr h60.1
  · apply Int.floor_lt.mpr
    push_cast
    exact h60.2
  · exact Int.floor_nonneg.mpr (mul_nonneg h1.1 (by norm_num))
  · apply Int.floor_lt.mpr
    push_cast
    calc pyMod s 1 * 1000 < 1 * 1000 :=
          mul_lt_mul_of_pos_right h1.2 (by norm_num)
      _ = 1000 := one_mul 1000

/-- C10: `convert_to_srt` returns the empty string for the empty word list;
for a non-empty list it renders exactly the cues obtained by grouping the
words into consecutive runs of 10 (the final group keeping the remaining,
at most 10, words), numbered consecutively from 1 (`renderCues 1` numbers
the groups `1, 2, 3, …`), every group non-empty and concatenating back to
the input; and every timestamp is rendered as `HH:MM:SS,mmm` — zero-padded
fields with minutes and seconds below 60 and milliseconds below 1000. -/
theorem C10_convert_to_srt_structure :
    convert_to_srt [] = "" ∧
    (∀ words : List Word, words ≠ [] →
        convert_to_srt words = renderCues 1 (chunks10 words)) ∧
    (∀ words c : List Word, c ∈ chunks10 words → c ≠ [] ∧ c.length ≤ 10) ∧
    (∀ words : List Word, (chunks10 words).flatten = words) ∧
    (∀ words c : List Word, c ∈ (chunks10 words).dropLast → c.length = 10) ∧
    (∀ s : ℚ, 0 ≤ s →
        ∃ hh mm ss ms : ℤ,
          format_time_srt s
            = pad2 hh ++ ":" ++ pad2 mm ++ ":" ++ pad2 ss ++ "," ++ pad3 ms ∧
          0 ≤ hh ∧ 0 ≤ mm ∧ mm < 60 ∧ 0 ≤ ss ∧ ss < 60 ∧ 0 ≤ ms ∧ ms < 1000) := by
  refine ⟨rfl, ?_, ?_, ?_, ?_, format_time_srt_shape⟩
  · intro words hne
    unfold convert_to_srt
    rw [if_neg (by simpa [List.isEmpty_iff] using hne)]
    exact srtLoop_chunks words.length words words.length 0 1
      (le_refl _) hne (by simp) (by simp)
  · intro words c hm
    exact chunksGo_mem words.length words c (le_refl _) hm
  · intro words
    exact chunksGo_flatten words.length words (le_refl _)
  · intro words c hm
    exact chunksGo_dropLast_len words.length words c (le_refl _) hm

/-- Witness for C10 at concrete inputs: a twelve-word list (two cues) and
the timestamp 7322.405 seconds. -/
theorem C10_convert_to_srt_structure_witness :
    convert_to_srt [⟨"a", some 0, some 1⟩, ⟨"b", some 1, some 2⟩,
        ⟨"c", some 2, some 3⟩, ⟨"d", some 3, some 4⟩, ⟨"e", some 4, some 5⟩,
        ⟨"f", some 5, some 6⟩, ⟨"g", some 6, some 7⟩, ⟨"h", some 7, some 8⟩,
        ⟨"i", some 8, some 9⟩, ⟨"j", some 9, some 10⟩, ⟨"k", some 10, some 11⟩,
        ⟨"l", some 11, some 12⟩]
      = renderCues 1 (chunks10 [⟨"a", some 0, some 1⟩, ⟨"b", some 1, some 2⟩,
        ⟨"c", some 2, some 3⟩, ⟨"d", some 3, some 4⟩, ⟨"e", some 4, some 5⟩,
        ⟨"f", some 5, some 6⟩, ⟨"g", some 6, some 7⟩, ⟨"h", some 7, some 8⟩,
        ⟨"i", some 8, some 9⟩, ⟨"j", some 9, some 10⟩, ⟨"k", some 10, some 11⟩,
        ⟨"l", some 11, some 12⟩]) ∧
    (∃ hh mm ss ms : ℤ,
        format_time_srt (7322405 / 1000 : ℚ)
          = pad2 hh ++ ":" ++ pad2 mm ++ ":" ++ pad2 ss ++ "," ++ pad3 ms ∧
        0 ≤ hh ∧ 0 ≤ mm ∧ mm < 60 ∧ 0 ≤ ss ∧ ss < 60 ∧ 0 ≤ ms ∧ ms < 1000) :=
  ⟨C10_convert_to_srt_structure.2.1 _ (by simp),
   C10_convert_to_srt_structure.2.2.2.2.2 (7322405 / 1000 : ℚ) (by norm_num)⟩
